import Mathlib

/-!
Shallow embedding of the duel-game server core
(models/Session.ts, models/Character.ts, models/Ability.ts,
config/CharacterType.ts, config/AbilityOffense.ts, config/AbilityDefense.ts,
sockets/sessions.ts, services/sessionManager.ts).

JavaScript Map objects are modelled as association lists with Map semantics
(set updates an existing key in place, otherwise appends; delete removes the
entry).  JavaScript Set objects over numbers are modelled as duplicate-free
lists.  Each call of Math.random() < 0.25 inside an ability hook is modelled
as an explicit Bool parameter (true = the 25 percent branch was drawn), and
the two stat rolls at Character construction are modelled as Nat parameters
fed through randomInRange.  All JS numbers occurring here are integers, so
they are modelled as Int with explicit Math.floor semantics (Int.fdiv).
-/

/-- Map.get: find the value stored under a key in an association list. -/
def alookup {α : Type} (k : String) : List (String × α) → Option α
  | [] => none
  | (k1, v) :: rest => if k = k1 then some v else alookup k rest

/-- Map.set: update the entry for a key in place, or append a new entry. -/
def aset {α : Type} (k : String) (v : α) : List (String × α) → List (String × α)
  | [] => [(k, v)]
  | (k1, v1) :: rest => if k = k1 then (k, v) :: rest else (k1, v1) :: aset k v rest

/-- Map.delete: remove the entry for a key (first occurrence). -/
def adel {α : Type} (k : String) : List (String × α) → List (String × α)
  | [] => []
  | (k1, v1) :: rest => if k = k1 then rest else (k1, v1) :: adel k rest

/-- Set.add: append an element unless it is already present. -/
def sadd (x : Nat) (l : List Nat) : List Nat :=
  if x ∈ l then l else l ++ [x]

/-! ### config/CharacterType.ts -/

/-- CharacterType enum. -/
inductive CharacterType where
  | warrior
  | mage
  deriving DecidableEq, Repr

/-- Metadata record for a character type. -/
structure CharacterTypeData where
  name : String
  attacks : List String
  deriving DecidableEq, Repr

/-- The CharacterTypeData lookup table. -/
def characterTypeData : CharacterType → CharacterTypeData
  | CharacterType.warrior => { name := "Warrior", attacks := ["slash", "stab", "shieldBash"] }
  | CharacterType.mage => { name := "Mage", attacks := ["fireball", "icebolt", "arcaneBlast"] }

/-! ### config/AbilityOffense.ts and config/AbilityDefense.ts

The enum values are the id strings "boostAttackOnAttack",
"halfDamageOnDefend" and "healUnder30".  Each behavior closure samples
Math.random() < 0.25 once; that draw is the Bool argument. -/

/-- OffenseBehaviors[BoostAttackOnAttack].onAttack:
25 percent chance to return Math.floor(baseAttack * 1.5). -/
def boostOnAttack (draw : Bool) (baseAttack : Int) : Int :=
  if draw then Int.fdiv (3 * baseAttack) 2 else baseAttack

/-- DefenseBehaviors[HalfDamageOnDefend].onDefend:
25 percent chance to return Math.floor(netDamage / 2). -/
def halfOnDefend (draw : Bool) (netDamage : Int) : Int :=
  if draw then Int.fdiv netDamage 2 else netDamage

/-- DefenseBehaviors[HealUnder30].afterDamage:
if health is in (0, 30), a 25 percent chance to return health + 5. -/
def healAfterDamage (draw : Bool) (healthAfterDamage : Int) : Int :=
  if 0 < healthAfterDamage ∧ healthAfterDamage < 30 ∧ draw = true then
    healthAfterDamage + 5
  else healthAfterDamage

/-- A DefenseBehavior record: both hook fields are optional. -/
structure DefenseBehavior where
  onDefend : Option (Bool → Int → Int)
  afterDamage : Option (Bool → Int → Int)

/-- DefenseBehaviors[HalfDamageOnDefend]: only onDefend is provided. -/
def halfDamageOnDefendBehavior : DefenseBehavior :=
  { onDefend := some halfOnDefend, afterDamage := none }

/-- DefenseBehaviors[HealUnder30]: only afterDamage is provided. -/
def healUnder30Behavior : DefenseBehavior :=
  { onDefend := none, afterDamage := some healAfterDamage }

/-- OffenseBehaviors[id].onAttack, looked up by the id string.
The record has exactly one key; any other id yields undefined in JS
(reading .onAttack on it throws a TypeError). -/
def onAttackFor (id : String) : Option (Bool → Int → Int) :=
  if id = "boostAttackOnAttack" then some boostOnAttack else none

/-! ### models/Ability.ts -/

/-- AbilityKind: the string kinds offense and defense. -/
inductive AbilityKind where
  | offense
  | defense
  deriving DecidableEq, Repr

/-- The Ability class: id, name, description, kind. -/
structure Ability where
  id : String
  name : String
  description : String
  kind : AbilityKind
  deriving DecidableEq, Repr

/-- Ability.all(): offense list first, then defense list, in enum order. -/
def Ability.all : List Ability :=
  [ { id := "boostAttackOnAttack", name := "Boost Attack on Attack",
      description := "25% chance to increase your damage by 50% when attacking.",
      kind := AbilityKind.offense },
    { id := "halfDamageOnDefend", name := "Half Damage on Defend",
      description := "25% chance to take only half damage when attacked.",
      kind := AbilityKind.defense },
    { id := "healUnder30", name := "Heal Under 30",
      description := "25% chance to heal 5 HP if your health falls below 30.",
      kind := AbilityKind.defense } ]

/-- Ability.findById(id). -/
def Ability.findById (id : String) : Option Ability :=
  Ability.all.find? (fun a => a.id == id)

/-! ### models/Character.ts -/

/-- The Character class. -/
structure Character where
  type : CharacterType
  name : String
  health : Int
  attackPower : Int
  defensePower : Int
  ability : Ability
  attackTypes : List String
  deriving DecidableEq, Repr

/-- Character.randomInRange(min, max): Math.floor(Math.random() * (max - min + 1)) + min.
The draw Math.floor(Math.random() * n) in 0..n-1 is modelled as k % n. -/
def randomInRange (lo hi : Int) (k : Nat) : Int :=
  lo + Int.ofNat (k % (hi - lo + 1).toNat)

/-- The Character constructor: health 100, attackPower drawn from 15..20,
defensePower drawn from 10..15; k1 and k2 are the two random draws. -/
def Character.create (t : CharacterType) (ab : Ability) (k1 k2 : Nat) : Character :=
  { type := t
    name := (characterTypeData t).name
    health := 100
    attackPower := randomInRange 15 20 k1
    defensePower := randomInRange 10 15 k2
    ability := ab
    attackTypes := (characterTypeData t).attacks }

/-- Character.parseType(id). -/
def Character.parseType (id : String) : Option CharacterType :=
  if id = "warrior" then some CharacterType.warrior
  else if id = "mage" then some CharacterType.mage
  else none

/-! ### models/Session.ts

players and sockets are JS Maps (association lists here), takenSlots a JS
Set of numbers.  The two timer handles are modelled as Bool flags meaning
"a timer is scheduled and has neither fired nor been cancelled".
assignments is a specification-only ghost field: the history of
(slot, playerId) pairs recorded by every successful addPlayer call; the
source keeps this binding implicitly (slot 1 belongs to player1Id and any
other assigned slot to player2Id).  No source operation reads it. -/

structure Session where
  id : String
  player1Id : String
  player2Id : String
  players : List (String × Character)
  sockets : List (String × String)
  pendingJoinTimer : Bool
  disconnectTimer : Bool
  takenSlots : List Nat
  assignments : List (Nat × String)
  deriving DecidableEq, Repr

/-- The Session constructor: fresh ids (passed in, standing for uuidv4()),
empty maps, the 60s pending-join timer started. -/
def Session.new (id p1 p2 : String) : Session :=
  { id := id
    player1Id := p1
    player2Id := p2
    players := []
    sockets := []
    pendingJoinTimer := true
    disconnectTimer := false
    takenSlots := []
    assignments := [] }

/-- Session.getAvailableSlots(). -/
def getAvailableSlots (s : Session) : List Nat :=
  (if 1 ∈ s.takenSlots then [] else [1]) ++ (if 2 ∈ s.takenSlots then [] else [2])

/-- Session.assignPlayerSlot(playerId, preferredSlot?).
Returns the mutated session together with the JS return value (ok slot) or
the thrown error.  Notes kept faithful to the source:
the early branch for an already-present playerId compares
players.get(playerId) and players.get(player1Id) by object identity, which
holds exactly when playerId equals player1Id (distinct keys always hold
distinct freshly constructed Character objects); and the JS truthiness test
on preferredSlot treats both undefined and 0 as absent. -/
def assignPlayerSlot (s : Session) (playerId : String) (preferredSlot : Option Nat) :
    Session × Except String Nat :=
  if (alookup playerId s.players).isSome then
    (s, Except.ok (if 1 ∈ s.takenSlots ∧ playerId = s.player1Id then 1 else 2))
  else
    let pv := preferredSlot.getD 0
    if pv ≠ 0 ∧ pv ∉ s.takenSlots then
      ({ s with takenSlots := sadd pv s.takenSlots }, Except.ok pv)
    else
      match getAvailableSlots s with
      | [] => (s, Except.error "No player slots available")
      | a :: _ => ({ s with takenSlots := sadd a s.takenSlots }, Except.ok a)

/-- Session.addPlayer(characterTypeId, abilityId, preferredSlot?).
k1 and k2 are the two stat rolls of the Character constructor.  Returns the
mutated session and either ok playerId or the thrown error; note that the
source claims the slot (step 2) before validating the character type and
ability (steps 3 and 4), so a validation failure leaves the slot claimed. -/
def addPlayer (s : Session) (characterTypeId abilityId : String)
    (preferredSlot : Option Nat) (k1 k2 : Nat) : Session × Except String String :=
  if 2 ≤ s.players.length then (s, Except.error "Session is already full")
  else
    match assignPlayerSlot s "" preferredSlot with
    | (s1, Except.error e) => (s1, Except.error e)
    | (s1, Except.ok slot) =>
      let playerId := if slot = 1 then s1.player1Id else s1.player2Id
      match Character.parseType characterTypeId with
      | none =>
        (s1, Except.error ("Character type \"" ++ characterTypeId ++ "\" not recognized"))
      | some charType =>
        match Ability.findById abilityId with
        | none => (s1, Except.error ("Ability \"" ++ abilityId ++ "\" not found"))
        | some ability =>
          let character := Character.create charType ability k1 k2
          let s2 := { s1 with
                      players := aset playerId character s1.players
                      assignments := s1.assignments ++ [(slot, playerId)] }
          if s2.players.length = 2 ∧ s2.pendingJoinTimer = true then
            ({ s2 with pendingJoinTimer := false }, Except.ok playerId)
          else (s2, Except.ok playerId)

/-- Session.hasPlayer(playerId). -/
def hasPlayer (s : Session) (playerId : String) : Bool :=
  (alookup playerId s.players).isSome

/-- Session.bothConnected(). -/
def bothConnected (s : Session) : Bool :=
  if s.players.length ≠ 2 then false
  else s.players.all (fun pr => s.sockets.any (fun q => q.2 == pr.1))

/-- Session.attachSocket(socketId, playerId). -/
def attachSocket (s : Session) (socketId playerId : String) : Session :=
  let s1 := { s with sockets := aset socketId playerId s.sockets }
  if bothConnected s1 = true ∧ s1.disconnectTimer = true then
    { s1 with disconnectTimer := false }
  else s1

/-- Session.detachSocket(socketId): returns the session and wasAttached. -/
def detachSocket (s : Session) (socketId : String) : Session × Bool :=
  if (alookup socketId s.sockets).isSome then
    let s1 := { s with sockets := adel socketId s.sockets }
    if bothConnected s1 = false ∧ s1.disconnectTimer = false then
      ({ s1 with disconnectTimer := true }, true)
    else (s1, true)
  else (s, false)

/-- One Bool per Math.random() < 0.25 draw that a combat resolution can
make: the offense onAttack draw, the HalfDamageOnDefend onDefend draw and
the HealUnder30 afterDamage draw. -/
structure Rng where
  atk : Bool
  half : Bool
  heal : Bool
  deriving DecidableEq, Repr

/-- The error a JS property read on undefined raises when
OffenseBehaviors[offId] has no entry for offId; unreachable for abilities
coming from the catalog, where kind offense implies the single offense id. -/
def undefinedLookupMsg : String :=
  "Cannot read properties of undefined (reading onAttack)"

/-- Session.useAbility(fromPlayer, toPlayer): one combat turn; mutates the
health of the defender and nothing else.  A thrown error is returned as
Except.error; on success the mutated session is returned. -/
def useAbility (s : Session) (fromPlayer toPlayer : String) (r : Rng) :
    Except String Session :=
  match alookup fromPlayer s.players, alookup toPlayer s.players with
  | some attacker, some defender =>
    let attackValue := attacker.attackPower
    let offense : Except String Int :=
      if attacker.ability.kind = AbilityKind.offense then
        match onAttackFor attacker.ability.id with
        | some behavior => Except.ok (behavior r.atk attackValue)
        | none => Except.error undefinedLookupMsg
      else Except.ok attackValue
    match offense with
    | Except.error e => Except.error e
    | Except.ok attackValue =>
      let netDamage := attackValue - defender.defensePower
      let netDamage := if netDamage < 0 then 0 else netDamage
      let netDamage :=
        if defender.ability.kind = AbilityKind.defense then
          if defender.ability.id = "halfDamageOnDefend" then
            match halfDamageOnDefendBehavior.onDefend with
            | some behavior => behavior r.half netDamage
            | none => netDamage
          else netDamage
        else netDamage
      let health := defender.health - netDamage
      let health := if health < 0 then 0 else health
      let health :=
        if defender.ability.kind = AbilityKind.defense then
          if defender.ability.id = "healUnder30" then
            match healUnder30Behavior.afterDamage with
            | some behavior => behavior r.heal health
            | none => health
          else health
        else health
      Except.ok { s with players := aset toPlayer { defender with health := health } s.players }
  | _, _ => Except.error "One or both players not found"

/-! ### sockets/sessions.ts — the inline combat logic of the useAbility
socket handler -/

/-- The roundResult object the useAbility handler broadcasts. -/
structure RoundOutcome where
  roundNumber : Nat
  sessionId : String
  attackerId : String
  attackerName : String
  defenderId : String
  defenderName : String
  abilityUsed : Option String
  damageDealt : Int
  healthAfter : List (String × Int)
  deriving DecidableEq, Repr

/-- The inline combat logic of the useAbility socket handler
(sockets/sessions.ts, steps A to L): given the session, the current
sessionRounds entry for it (none when absent) and the payload, it returns
the mutated session, the new round counter value and the broadcast
roundResult, or the error emitted to the caller.  The guard that each
player id is recognized is the hasPlayer check of the source, expressed
directly on the map lookups it is defined by.  healthAfter is the JS
object literal with computed keys fromPlayer then toPlayer; when both ids
are equal, the attacker aliases the defender, so the post-round attacker
health reads the just-written defender health. -/
def useAbilityHandler (sess : Session) (rounds : Option Nat)
    (sessionId fromPlayer toPlayer : String) (r : Rng) :
    Except String (Session × Nat × RoundOutcome) :=
  match alookup fromPlayer sess.players, alookup toPlayer sess.players with
  | some attacker, some defender =>
    let roundNumber := match rounds with
      | some n => n + 1
      | none => 1
    let attackerName := attacker.name
    let defenderName := defender.name
    let baseAttack := attacker.attackPower
    let defensePower := defender.defensePower
    let beforeHealth := defender.health
    let offense : Except String (Int × Option String) :=
      if attacker.ability.kind = AbilityKind.offense then
        match onAttackFor attacker.ability.id with
        | some behavior =>
          let tryAttack := behavior r.atk baseAttack
          Except.ok (tryAttack,
            if tryAttack ≠ baseAttack then some attacker.ability.id else none)
        | none => Except.error undefinedLookupMsg
      else Except.ok (baseAttack, none)
    match offense with
    | Except.error e => Except.error e
    | Except.ok (modifiedAttack, offenseAbilityUsed) =>
      let netDamage := modifiedAttack - defensePower
      let netDamage := if netDamage < 0 then 0 else netDamage
      let defenseStep : Int × Option String :=
        if defender.ability.kind = AbilityKind.defense then
          if defender.ability.id = "halfDamageOnDefend" then
            match halfDamageOnDefendBehavior.onDefend with
            | some behavior =>
              let tryDamage := behavior r.half netDamage
              (tryDamage,
                if tryDamage ≠ netDamage then some defender.ability.id else none)
            | none => (netDamage, none)
          else (netDamage, none)
        else (netDamage, none)
      let netDamage := defenseStep.1
      let defenseAbilityUsed := defenseStep.2
      let newHealth := beforeHealth - netDamage
      let newHealth := if newHealth < 0 then 0 else newHealth
      let healStep : Int × Option String :=
        if defender.ability.kind = AbilityKind.defense then
          if defender.ability.id = "healUnder30" then
            match healUnder30Behavior.afterDamage with
            | some behavior =>
              let tryHeal := behavior r.heal newHealth
              (tryHeal,
                if tryHeal ≠ newHealth then some defender.ability.id
                else defenseAbilityUsed)
            | none => (newHealth, defenseAbilityUsed)
          else (newHealth, defenseAbilityUsed)
        else (newHealth, defenseAbilityUsed)
      let newHealth := healStep.1
      let defenseAbilityUsed := healStep.2
      let sess1 := { sess with
        players := aset toPlayer { defender with health := newHealth } sess.players }
      let abilityUsed : Option String :=
        match offenseAbilityUsed, defenseAbilityUsed with
        | some o, some d => some (o ++ "," ++ d)
        | some o, none => some o
        | none, some d => some d
        | none, none => none
      let attackerHealthPost :=
        if fromPlayer = toPlayer then newHealth else attacker.health
      let defenderHealthPost := newHealth
      let healthAfter :=
        aset toPlayer defenderHealthPost (aset fromPlayer attackerHealthPost [])
      Except.ok (sess1, roundNumber,
        { roundNumber := roundNumber
          sessionId := sessionId
          attackerId := fromPlayer
          attackerName := attackerName
          defenderId := toPlayer
          defenderName := defenderName
          abilityUsed := abilityUsed
          damageDealt := netDamage
          healthAfter := healthAfter })
  | _, _ => Except.error "One or both players not recognized."

/-! ### sockets/sessions.ts — the per-session round counter

sessionRounds is a module-level Map from sessionId to round number; for one
fixed session its entry is an Option Nat.  The join handler initializes the
entry to 0 when the serialized state says bothConnected and no entry exists
yet; the useAbility handler (step B) sets it to its previous value plus one,
treating a missing entry as zero; the disconnect handler never touches it. -/

/-- The three kinds of socket events that can touch the round counter of a
session: a join (carrying whether serialize().bothConnected was true at
that moment), a successful attack resolution, and a disconnect. -/
inductive REvent where
  | joinE (bothConnectedNow : Bool)
  | resolveE
  | disconnectE
  deriving DecidableEq, Repr

/-- Effect of one socket event on the sessionRounds entry of the session. -/
def rstep (o : Option Nat) : REvent → Option Nat
  | REvent.joinE b => if b = true ∧ o = none then some 0 else o
  | REvent.resolveE => some ((o.getD 0) + 1)
  | REvent.disconnectE => o

/-- The round counter value an entry denotes: a missing entry counts as 0
(the useAbility handler uses 1 as the first round number). -/
def counterValue (o : Option Nat) : Nat :=
  o.getD 0

/-- The number of attack resolutions in an event list. -/
def resolveCount : List REvent → Nat
  | [] => 0
  | REvent.resolveE :: rest => resolveCount rest + 1
  | _ :: rest => resolveCount rest

/-! ### The gateway-level state machine (index.ts wiring of routes/games.ts
and sockets/sessions.ts around one session)

One session is tracked together with whether it is still registered in the
SessionManager singleton.  Events are the externally triggered operations
that can touch this session: the HTTP join route, the socket join handler,
the socket disconnect handler, and the firing of the two timers.  The
handlers first look the session up in the manager and bail out when it is
gone; the socket join handler additionally checks hasPlayer before
attaching.  The timer callbacks run as written in the source: the
pending-join callback re-checks players.size < 2 before deleting, the
disconnect callback deletes unconditionally; SessionManager.delete is
idempotent, so firing after deletion leaves everything unchanged. -/

structure Sys where
  sess : Session
  inRegistry : Bool
  deriving DecidableEq, Repr

/-- The externally triggered events around one session. -/
inductive GEvent where
  | httpJoin (characterTypeId abilityId : String) (preferredSlot : Option Nat) (k1 k2 : Nat)
  | sockJoin (socketId playerId : String)
  | sockDisconnect (socketId : String)
  | pendingFire
  | discFire

/-- One gateway step. -/
def gstep (st : Sys) : GEvent → Sys
  | GEvent.httpJoin characterTypeId abilityId preferredSlot k1 k2 =>
    if st.inRegistry then
      { st with sess := (addPlayer st.sess characterTypeId abilityId preferredSlot k1 k2).1 }
    else st
  | GEvent.sockJoin socketId playerId =>
    if st.inRegistry then
      if hasPlayer st.sess playerId then
        { st with sess := attachSocket st.sess socketId playerId }
      else st
    else st
  | GEvent.sockDisconnect socketId =>
    if st.inRegistry then
      { st with sess := (detachSocket st.sess socketId).1 }
    else st
  | GEvent.pendingFire =>
    if st.sess.pendingJoinTimer then
      { sess := { st.sess with pendingJoinTimer := false }
        inRegistry := if st.sess.players.length < 2 then false else st.inRegistry }
    else st
  | GEvent.discFire =>
    if st.sess.disconnectTimer then
      { sess := { st.sess with disconnectTimer := false }, inRegistry := false }
    else st

/-- States reachable from a freshly created, registered session.  The ids
stand for uuidv4() outputs: nonempty and pairwise distinct. -/
inductive GReach : Sys → Prop where
  | init (id p1 p2 : String) (h1 : p1 ≠ "") (h2 : p2 ≠ "") (h3 : p1 ≠ p2) :
      GReach { sess := Session.new id p1 p2, inRegistry := true }
  | step (st : Sys) (e : GEvent) : GReach st → GReach (gstep st e)

/-- The inductive session invariant: the slot ids are nonempty, every
player entry is keyed by one of them, every live socket points at a joined
player, a scheduled disconnect timer certifies that the session is not
both-connected, and every slot ever assigned by a join stays claimed. -/
def SessInv (s : Session) : Prop :=
  s.player1Id ≠ "" ∧ s.player2Id ≠ "" ∧
  (∀ pr ∈ s.players, pr.1 = s.player1Id ∨ pr.1 = s.player2Id) ∧
  (∀ q ∈ s.sockets, ∃ pr ∈ s.players, pr.1 = q.2) ∧
  (s.disconnectTimer = true → bothConnected s = false) ∧
  (∀ sp ∈ s.assignments, sp.1 ∈ s.takenSlots)

/-! ### Concrete instances used by witnesses and counterexamples -/

/-- A catalog ability is consistent: its kind is offense exactly for the
single offense id, so the OffenseBehaviors lookup in the combat code finds
an entry.  Every ability built by Ability.all satisfies this. -/
def wfAbility (a : Ability) : Prop :=
  a.kind = AbilityKind.offense → a.id = "boostAttackOnAttack"

/-- No probabilistic hook draw fires: every hook returns its input. -/
def noTrigger : Rng :=
  { atk := false, half := false, heal := false }

/-- A freshly created session with concrete ids. -/
def duelSession0 : Session :=
  Session.new "s" "p1" "p2"

/-- The fresh session after one join: a Warrior with the offense ability,
stat rolls giving attackPower 20 and defensePower 10. -/
def duelSessionA : Session :=
  (addPlayer duelSession0 "warrior" "boostAttackOnAttack" none 5 0).1

/-- The session after a second join: a Warrior with HalfDamageOnDefend,
also with attackPower 20 and defensePower 10. -/
def duelSessionAB : Session :=
  (addPlayer duelSessionA "warrior" "halfDamageOnDefend" none 5 0).1

/-- The initial gateway state: the fresh session, registered. -/
def sys0G : Sys :=
  { sess := duelSession0, inRegistry := true }

/-- The catalog offense ability, as built by Ability.all. -/
def boostAbility : Ability :=
  { id := "boostAttackOnAttack", name := "Boost Attack on Attack",
    description := "25% chance to increase your damage by 50% when attacking.",
    kind := AbilityKind.offense }

/-- The catalog HalfDamageOnDefend ability, as built by Ability.all. -/
def halfAbility : Ability :=
  { id := "halfDamageOnDefend", name := "Half Damage on Defend",
    description := "25% chance to take only half damage when attacked.",
    kind := AbilityKind.defense }

/-- The session state after resolving one hookless attack from p1 at p2 on
the two-player session. -/
def duelSessionABHit : Session :=
  ((useAbility duelSessionAB "p1" "p2" noTrigger).toOption).getD duelSessionAB

/-! ## Helper lemmas about the map and set embeddings -/

theorem alookup_eq_some_mem {α : Type} {k : String} {v : α} :
    ∀ {l : List (String × α)}, alookup k l = some v → (k, v) ∈ l := by
  intro l
  induction l with
  | nil => intro h; simp [alookup] at h
  | cons hd tl ih =>
    obtain ⟨k1, v1⟩ := hd
    intro h
    simp only [alookup] at h
    by_cases hk : k = k1
    · rw [if_pos hk] at h
      injection h with h2
      rw [List.mem_cons]
      left
      rw [hk, h2]
    · rw [if_neg hk] at h
      exact List.mem_cons_of_mem _ (ih h)

theorem mem_aset {α : Type} {k : String} {v : α} {pr : String × α} :
    ∀ {l : List (String × α)}, pr ∈ aset k v l → pr = (k, v) ∨ pr ∈ l := by
  intro l
  induction l with
  | nil =>
    intro h
    simp only [aset, List.mem_singleton] at h
    left; exact h
  | cons hd tl ih =>
    obtain ⟨k1, v1⟩ := hd
    intro h
    simp only [aset] at h
    by_cases hk : k = k1
    · rw [if_pos hk] at h
      rw [List.mem_cons] at h
      rcases h with h | h
      · left; exact h
      · right; exact List.mem_cons_of_mem _ h
    · rw [if_neg hk] at h
      rw [List.mem_cons] at h
      rcases h with h | h
      · right; rw [List.mem_cons]; left; exact h
      · rcases ih h with h1 | h1
        · left; exact h1
        · right; exact List.mem_cons_of_mem _ h1

theorem self_mem_aset {α : Type} (k : String) (v : α) :
    ∀ (l : List (String × α)), (k, v) ∈ aset k v l := by
  intro l
  induction l with
  | nil => simp [aset]
  | cons hd tl ih =>
    obtain ⟨k1, v1⟩ := hd
    simp only [aset]
    by_cases hk : k = k1
    · rw [if_pos hk]; exact List.mem_cons_self _ _
    · rw [if_neg hk]; exact List.mem_cons_of_mem _ ih

theorem mem_aset_of_mem_ne {α : Type} {k : String} {v : α} {pr : String × α}
    (hne : pr.1 ≠ k) : ∀ {l : List (String × α)}, pr ∈ l → pr ∈ aset k v l := by
  intro l
  induction l with
  | nil => intro h; simp at h
  | cons hd tl ih =>
    obtain ⟨k1, v1⟩ := hd
    intro h
    rw [List.mem_cons] at h
    simp only [aset]
    by_cases hk : k = k1
    · rw [if_pos hk]
      rcases h with h | h
      · exfalso
        apply hne
        rw [h, hk]
      · exact List.mem_cons_of_mem _ h
    · rw [if_neg hk]
      rcases h with h | h
      · rw [h]; exact List.mem_cons_self _ _
      · exact List.mem_cons_of_mem _ (ih h)

theorem alookup_aset_self {α : Type} (k : String) (v : α) :
    ∀ (l : List (String × α)), alookup k (aset k v l) = some v := by
  intro l
  induction l with
  | nil => simp [aset, alookup]
  | cons hd tl ih =>
    obtain ⟨k1, v1⟩ := hd
    simp only [aset]
    by_cases hk : k = k1
    · rw [if_pos hk]; simp [alookup]
    · rw [if_neg hk]; simp only [alookup, if_neg hk]; exact ih

theorem alookup_aset_ne {α : Type} {k1 k : String} (v : α) (hne : k1 ≠ k) :
    ∀ (l : List (String × α)), alookup k1 (aset k v l) = alookup k1 l := by
  intro l
  induction l with
  | nil => simp [aset, alookup, hne]
  | cons hd tl ih =>
    obtain ⟨k2, v2⟩ := hd
    simp only [aset]
    by_cases hk : k = k2
    · rw [if_pos hk]
      subst hk
      simp only [alookup, if_neg hne]
    · rw [if_neg hk]
      simp only [alookup]
      by_cases hk1 : k1 = k2
      · rw [if_pos hk1, if_pos hk1]
      · rw [if_neg hk1, if_neg hk1]; exact ih

theorem length_aset_of_lookup_some {α : Type} {k : String} {w : α} (v : α) :
    ∀ {l : List (String × α)}, alookup k l = some w →
      (aset k v l).length = l.length := by
  intro l
  induction l with
  | nil => intro h; simp [alookup] at h
  | cons hd tl ih =>
    obtain ⟨k1, v1⟩ := hd
    intro h
    simp only [alookup] at h
    simp only [aset]
    by_cases hk : k = k1
    · rw [if_pos hk]; simp
    · rw [if_neg hk] at h ⊢
      simp [ih h]

theorem mem_adel {α : Type} {k : String} {pr : String × α} :
    ∀ {l : List (String × α)}, pr ∈ adel k l → pr ∈ l := by
  intro l
  induction l with
  | nil => intro h; simp [adel] at h
  | cons hd tl ih =>
    obtain ⟨k1, v1⟩ := hd
    intro h
    simp only [adel] at h
    by_cases hk : k = k1
    · rw [if_pos hk] at h
      exact List.mem_cons_of_mem _ h
    · rw [if_neg hk] at h
      rw [List.mem_cons] at h ⊢
      rcases h with h | h
      · left; exact h
      · right; exact ih h

theorem mem_sadd_self (x : Nat) (l : List Nat) : x ∈ sadd x l := by
  unfold sadd
  by_cases hx : x ∈ l
  · rw [if_pos hx]; exact hx
  · rw [if_neg hx]; simp

theorem mem_sadd_of_mem {y : Nat} (x : Nat) {l : List Nat} (h : y ∈ l) :
    y ∈ sadd x l := by
  unfold sadd
  by_cases hx : x ∈ l
  · rw [if_pos hx]; exact h
  · rw [if_neg hx]; simp [h]

theorem alookup_isSome_of_mem {α : Type} {k : String} {v : α} :
    ∀ {l : List (String × α)}, (k, v) ∈ l → (alookup k l).isSome = true := by
  intro l
  induction l with
  | nil => intro h; simp at h
  | cons hd tl ih =>
    obtain ⟨k1, v1⟩ := hd
    intro h
    rw [List.mem_cons] at h
    simp only [alookup]
    by_cases hk : k = k1
    · rw [if_pos hk]; rfl
    · rw [if_neg hk]
      rcases h with h | h
      · exfalso; apply hk; exact congrArg Prod.fst h
      · exact ih h

theorem length_aset_of_lookup_none {α : Type} {k : String} (v : α) :
    ∀ {l : List (String × α)}, alookup k l = none →
      (aset k v l).length = l.length + 1 := by
  intro l
  induction l with
  | nil => intro _; simp [aset]
  | cons hd tl ih =>
    obtain ⟨k1, v1⟩ := hd
    intro h
    simp only [alookup] at h
    simp only [aset]
    by_cases hk : k = k1
    · rw [if_pos hk] at h; simp at h
    · rw [if_neg hk] at h ⊢
      simp [ih h]

theorem bothConnected_eq_of {s1 s2 : Session}
    (hp : s1.players = s2.players) (hs : s1.sockets = s2.sockets) :
    bothConnected s1 = bothConnected s2 := by
  unfold bothConnected
  rw [hp, hs]

/-- Removing a socket cannot make the session both-connected. -/
theorem bothConnected_adel_mono {s : Session} {socketId : String}
    (h : bothConnected { s with sockets := adel socketId s.sockets } = true) :
    bothConnected s = true := by
  unfold bothConnected at h ⊢
  by_cases hl : s.players.length = 2
  · rw [if_neg (by simp [hl])] at h ⊢
    rw [List.all_eq_true] at h ⊢
    intro pr hpr
    have h1 := h pr hpr
    rw [List.any_eq_true] at h1 ⊢
    obtain ⟨q, hq, hq2⟩ := h1
    exact ⟨q, mem_adel hq, hq2⟩
  · rw [if_pos (by simp [hl])] at h
    simp at h

/-- Characterization of bothConnected used both for claim C6 and inside
the reachability invariant. -/
theorem bothConnected_eq_true_iff (s : Session) :
    bothConnected s = true ↔
      (s.players.length = 2 ∧ ∀ pr ∈ s.players, ∃ q ∈ s.sockets, q.2 = pr.1) := by
  unfold bothConnected
  by_cases hl : s.players.length = 2
  · rw [if_neg (by simp [hl])]
    rw [List.all_eq_true]
    constructor
    · intro h
      refine ⟨hl, fun pr hpr => ?_⟩
      have h1 := h pr hpr
      rw [List.any_eq_true] at h1
      obtain ⟨q, hq, hq2⟩ := h1
      exact ⟨q, hq, by simpa using hq2⟩
    · intro h pr hpr
      rw [List.any_eq_true]
      obtain ⟨q, hq, hq2⟩ := h.2 pr hpr
      exact ⟨q, hq, by simpa using hq2⟩
  · rw [if_pos (by simp [hl])]
    simp [hl]

/-- C6: bothConnected() is true exactly when two players have joined and
every joined player id occurs among the values of the socket-to-player
connection map.  This holds for every session state, in particular for
every state reachable by any sequence of addPlayer, attachSocket and
detachSocket calls. -/
theorem c6_bothConnected_iff (s : Session) :
    bothConnected s = true ↔
      (s.players.length = 2 ∧ ∀ pr ∈ s.players, ∃ q ∈ s.sockets, q.2 = pr.1) :=
  bothConnected_eq_true_iff s

theorem counterValue_rstep_resolve (o : Option Nat) :
    counterValue (rstep o REvent.resolveE) = counterValue o + 1 := by
  cases o <;> simp [rstep, counterValue]

theorem counterValue_rstep_join (o : Option Nat) (b : Bool) :
    counterValue (rstep o (REvent.joinE b)) = counterValue o := by
  cases o <;> cases b <;> simp [rstep, counterValue]

theorem counterValue_foldl (evts : List REvent) :
    ∀ o : Option Nat,
      counterValue (evts.foldl rstep o) = counterValue o + resolveCount evts := by
  induction evts with
  | nil => intro o; simp [resolveCount]
  | cons e rest ih =>
    intro o
    cases e with
    | joinE b =>
      simp only [List.foldl_cons, resolveCount]
      rw [ih, counterValue_rstep_join]
    | resolveE =>
      simp only [List.foldl_cons, resolveCount]
      rw [ih, counterValue_rstep_resolve]
      ring
    | disconnectE =>
      simp only [List.foldl_cons, resolveCount]
      rw [ih]
      rfl

/-- C3: starting from a missing sessionRounds entry (counter value 0),
after any interleaving of join, resolve and disconnect events the counter
equals the number of resolutions; a resolution adds exactly 1, and join and
disconnect events never change the value. -/
theorem c3_round_counter (evts : List REvent) :
    counterValue (evts.foldl rstep none) = resolveCount evts ∧
    (∀ o : Option Nat, counterValue (rstep o REvent.resolveE) = counterValue o + 1) ∧
    (∀ (o : Option Nat) (b : Bool),
        counterValue (rstep o (REvent.joinE b)) = counterValue o) ∧
    (∀ o : Option Nat, counterValue (rstep o REvent.disconnectE) = counterValue o) := by
  refine ⟨?_, counterValue_rstep_resolve, counterValue_rstep_join, fun o => rfl⟩
  rw [counterValue_foldl]
  simp [counterValue]

/-- C7, counterexample: starting from a fresh session, two plain slot
assignments claim slots 1 and 2, so no slot in the pair remains free; a
third call with the out-of-range preferred slot 3 nevertheless succeeds
and returns 3 instead of failing with NoSlotsAvailable. -/
theorem c7_counterexample :
    getAvailableSlots
        ((assignPlayerSlot ((assignPlayerSlot duelSession0 "" none).1) "" none).1) = [] ∧
    (assignPlayerSlot
        ((assignPlayerSlot ((assignPlayerSlot duelSession0 "" none).1) "" none).1)
        "" (some 3)).2 = Except.ok 3 := by
  exact ⟨rfl, rfl⟩

/-- C7, amended: for a playerId not yet joined, assignPlayerSlot claims and
returns the preferred slot whenever one is given, nonzero and not yet
taken — including out-of-range values such as 3; when the preferred slot is
absent, zero (treated as absent by the JS truthiness test) or already
taken, it claims and returns the lowest-numbered free slot among 1 and 2,
and fails with NoSlotsAvailable exactly when both of those are taken. -/
theorem c7_amended (s : Session) (playerId : String) (preferredSlot : Option Nat)
    (hpid : alookup playerId s.players = none) :
    (∀ p : Nat, preferredSlot = some p → p ≠ 0 → p ∉ s.takenSlots →
      assignPlayerSlot s playerId preferredSlot =
        ({ s with takenSlots := sadd p s.takenSlots }, Except.ok p)) ∧
    ((preferredSlot = none ∨ preferredSlot = some 0 ∨
        (∃ p, preferredSlot = some p ∧ p ∈ s.takenSlots)) →
      ((1 ∉ s.takenSlots →
          assignPlayerSlot s playerId preferredSlot =
            ({ s with takenSlots := sadd 1 s.takenSlots }, Except.ok 1)) ∧
       (1 ∈ s.takenSlots → 2 ∉ s.takenSlots →
          assignPlayerSlot s playerId preferredSlot =
            ({ s with takenSlots := sadd 2 s.takenSlots }, Except.ok 2)) ∧
       (1 ∈ s.takenSlots → 2 ∈ s.takenSlots →
          assignPlayerSlot s playerId preferredSlot =
            (s, Except.error "No player slots available")))) := by
  constructor
  · intro p hp hp0 hpt
    subst hp
    unfold assignPlayerSlot
    rw [hpid]
    simp only [Option.isSome_none, Bool.false_eq_true, if_false, Option.getD_some]
    rw [if_pos ⟨hp0, hpt⟩]
  · intro hfall
    have hcond : ¬ (preferredSlot.getD 0 ≠ 0 ∧ preferredSlot.getD 0 ∉ s.takenSlots) := by
      rcases hfall with h | h | ⟨p, hp, hmem⟩
      · subst h; simp
      · subst h; simp
      · subst hp; simp [hmem]
    refine ⟨?_, ?_, ?_⟩
    · intro h1
      unfold assignPlayerSlot
      rw [hpid]
      simp only [Option.isSome_none, Bool.false_eq_true, if_false]
      rw [if_neg hcond]
      unfold getAvailableSlots
      rw [if_neg h1]
      cases hm2 : decide (2 ∈ s.takenSlots) <;> simp_all
    · intro h1 h2
      unfold assignPlayerSlot
      rw [hpid]
      simp only [Option.isSome_none, Bool.false_eq_true, if_false]
      rw [if_neg hcond]
      unfold getAvailableSlots
      rw [if_pos h1, if_neg h2]
      simp
    · intro h1 h2
      unfold assignPlayerSlot
      rw [hpid]
      simp only [Option.isSome_none, Bool.false_eq_true, if_false]
      rw [if_neg hcond]
      unfold getAvailableSlots
      rw [if_pos h1, if_pos h2]
      simp

/-- C7, witness: on a fresh session, a join preferring the out-of-range
slot 3 claims and returns it. -/
theorem c7_witness :
    assignPlayerSlot duelSession0 "" (some 3) =
      ({ duelSession0 with takenSlots := sadd 3 duelSession0.takenSlots },
        Except.ok 3) :=
  (c7_amended duelSession0 "" (some 3) rfl).1 3 rfl (by decide) (by decide)

/-- assignPlayerSlot only ever touches takenSlots, and only by keeping it
or claiming one extra slot. -/
theorem assignPlayerSlot_shape (s : Session) (playerId : String) (pref : Option Nat) :
    ∃ ts, (assignPlayerSlot s playerId pref).1 = { s with takenSlots := ts } ∧
      (ts = s.takenSlots ∨ ∃ slot, ts = sadd slot s.takenSlots) ∧
      (∀ x ∈ s.takenSlots, x ∈ ts) := by
  unfold assignPlayerSlot
  by_cases hp : (alookup playerId s.players).isSome = true
  · rw [if_pos hp]
    exact ⟨s.takenSlots, rfl, Or.inl rfl, fun x hx => hx⟩
  · rw [if_neg hp]
    by_cases hc : pref.getD 0 ≠ 0 ∧ pref.getD 0 ∉ s.takenSlots
    · rw [if_pos hc]
      exact ⟨sadd (pref.getD 0) s.takenSlots, rfl,
        Or.inr ⟨pref.getD 0, rfl⟩, fun x hx => mem_sadd_of_mem _ hx⟩
    · rw [if_neg hc]
      cases hav : getAvailableSlots s with
      | nil => exact ⟨s.takenSlots, rfl, Or.inl rfl, fun x hx => hx⟩
      | cons a rest =>
        exact ⟨sadd a s.takenSlots, rfl, Or.inr ⟨a, rfl⟩,
          fun x hx => mem_sadd_of_mem _ hx⟩

/-- When assignPlayerSlot is called for a not-yet-joined playerId and
succeeds, the returned slot has been claimed into takenSlots. -/
theorem assignPlayerSlot_ok_mem (s : Session) (playerId : String) (pref : Option Nat)
    (slot : Nat) (hpid : alookup playerId s.players = none)
    (h : (assignPlayerSlot s playerId pref).2 = Except.ok slot) :
    slot ∈ (assignPlayerSlot s playerId pref).1.takenSlots := by
  unfold assignPlayerSlot at h ⊢
  rw [hpid] at h ⊢
  simp only [Option.isSome_none, Bool.false_eq_true, if_false] at h ⊢
  by_cases hc : pref.getD 0 ≠ 0 ∧ pref.getD 0 ∉ s.takenSlots
  · rw [if_pos hc] at h ⊢
    simp only at h ⊢
    injection h with h1
    subst h1
    exact mem_sadd_self _ _
  · rw [if_neg hc] at h ⊢
    cases hav : getAvailableSlots s with
    | nil =>
      rw [hav] at h
      exact Except.noConfusion h
    | cons a rest =>
      rw [hav] at h
      have h2 : Except.ok a = Except.ok slot := h
      injection h2 with h1
      subst h1
      show a ∈ sadd a s.takenSlots
      exact mem_sadd_self _ _

/-- C4, counterexample: on a fresh session, a join with an unknown
character type fails with the invalid-character-type error, yet the slot
claimed before validation stays claimed: getAvailableSlots shrinks from
the full pair to just slot 2, refuting the claim that a failed addPlayer
leaves the session state unchanged. -/
theorem c4_counterexample :
    (addPlayer duelSession0 "goblin" "boostAttackOnAttack" none 0 0).2 =
      Except.error "Character type \"goblin\" not recognized" ∧
    getAvailableSlots duelSession0 = [1, 2] ∧
    getAvailableSlots (addPlayer duelSession0 "goblin" "boostAttackOnAttack" none 0 0).1 =
      [2] := by
  exact ⟨rfl, rfl, rfl⟩

/-- C4, amended: addPlayer fails with SessionFull — leaving the session
completely unchanged — when two players are already present, and a failed
call never adds a player, never touches the connection map or the timers;
however the slot claimed before validation is not released, so a failure
after the claim (invalid character type or ability id) leaves one more
slot in takenSlots and getAvailableSlots may shrink. -/
theorem c4_amended (s : Session) (characterTypeId abilityId : String)
    (preferredSlot : Option Nat) (k1 k2 : Nat) :
    (2 ≤ s.players.length →
      addPlayer s characterTypeId abilityId preferredSlot k1 k2 =
        (s, Except.error "Session is already full")) ∧
    (∀ s1 e, addPlayer s characterTypeId abilityId preferredSlot k1 k2 =
        (s1, Except.error e) →
      s1.players = s.players ∧ s1.sockets = s.sockets ∧
      s1.pendingJoinTimer = s.pendingJoinTimer ∧
      s1.disconnectTimer = s.disconnectTimer ∧
      (s1.takenSlots = s.takenSlots ∨ ∃ slot, s1.takenSlots = sadd slot s.takenSlots)) := by
  constructor
  · intro h2
    unfold addPlayer
    rw [if_pos h2]
  · intro s1 e h
    unfold addPlayer at h
    by_cases h2 : 2 ≤ s.players.length
    · rw [if_pos h2] at h
      simp only [Prod.mk.injEq] at h
      rw [← h.1]
      exact ⟨rfl, rfl, rfl, rfl, Or.inl rfl⟩
    · rw [if_neg h2] at h
      obtain ⟨ts, hts, hcase, hmono⟩ := assignPlayerSlot_shape s "" preferredSlot
      rcases hres : assignPlayerSlot s "" preferredSlot with ⟨sa, res⟩
      rw [hres] at h hts
      simp only at hts
      cases res with
      | error e1 =>
        simp only [Prod.mk.injEq] at h
        rw [← h.1, hts]
        exact ⟨rfl, rfl, rfl, rfl, hcase⟩
      | ok slot =>
        dsimp only at h
        cases hparse : Character.parseType characterTypeId with
        | none =>
          rw [hparse] at h
          dsimp only at h
          simp only [Prod.mk.injEq] at h
          rw [← h.1, hts]
          exact ⟨rfl, rfl, rfl, rfl, hcase⟩
        | some charType =>
          rw [hparse] at h
          dsimp only at h
          cases hfind : Ability.findById abilityId with
          | none =>
            rw [hfind] at h
            dsimp only at h
            simp only [Prod.mk.injEq] at h
            rw [← h.1, hts]
            exact ⟨rfl, rfl, rfl, rfl, hcase⟩
          | some ability =>
            rw [hfind] at h
            dsimp only at h
            by_cases hfull : (aset (if slot = 1 then sa.player1Id else sa.player2Id)
                (Character.create charType ability k1 k2) sa.players).length = 2 ∧
                sa.pendingJoinTimer = true
            · rw [if_pos hfull] at h
              simp only [Prod.mk.injEq] at h
              exact absurd h.2.symm (by simp)
            · rw [if_neg hfull] at h
              simp only [Prod.mk.injEq] at h
              exact absurd h.2.symm (by simp)

/-- C4, witness: on a full two-player session, addPlayer fails with
SessionFull and leaves the session unchanged. -/
theorem c4_witness :
    addPlayer duelSessionAB "warrior" "boostAttackOnAttack" none 0 0 =
      (duelSessionAB, Except.error "Session is already full") :=
  (c4_amended duelSessionAB "warrior" "boostAttackOnAttack" none 0 0).1 (by decide)

theorem clamp_nonneg (x : Int) : 0 ≤ if x < 0 then 0 else x := by
  by_cases h : x < 0
  · rw [if_pos h]
  · rw [if_neg h]; omega

theorem healAfterDamage_nonneg (b : Bool) {x : Int} (hx : 0 ≤ x) :
    0 ≤ healAfterDamage b x := by
  unfold healAfterDamage
  split
  · omega
  · exact hx

/-- Normal form of a successful Session.useAbility call: both players were
found, and the only state change is the defender entry receiving a
nonnegative new health. -/
theorem useAbility_ok_shape (s : Session) (fromPlayer toPlayer : String) (r : Rng)
    (s1 : Session) (h : useAbility s fromPlayer toPlayer r = Except.ok s1) :
    ∃ attacker defender health,
      alookup fromPlayer s.players = some attacker ∧
      alookup toPlayer s.players = some defender ∧
      0 ≤ health ∧
      s1 = { s with players := aset toPlayer { defender with health := health } s.players } := by
  unfold useAbility at h
  cases hf : alookup fromPlayer s.players with
  | none => rw [hf] at h; exact Except.noConfusion h
  | some attacker =>
    rw [hf] at h
    cases ht : alookup toPlayer s.players with
    | none => rw [ht] at h; exact Except.noConfusion h
    | some defender =>
      rw [ht] at h
      dsimp only at h
      by_cases hk : attacker.ability.kind = AbilityKind.offense
      · rw [if_pos hk] at h
        cases ho : onAttackFor attacker.ability.id with
        | none => rw [ho] at h; exact Except.noConfusion h
        | some f =>
          rw [ho] at h
          dsimp only at h
          injection h with hinj
          subst hinj
          refine ⟨attacker, defender, _, rfl, rfl, ?_, rfl⟩
          simp only [healUnder30Behavior, halfDamageOnDefendBehavior]
          split
          · split
            · exact healAfterDamage_nonneg _ (clamp_nonneg _)
            · exact clamp_nonneg _
          · exact clamp_nonneg _
      · rw [if_neg hk] at h
        dsimp only at h
        injection h with hinj
        subst hinj
        refine ⟨attacker, defender, _, rfl, rfl, ?_, rfl⟩
        simp only [healUnder30Behavior, halfDamageOnDefendBehavior]
        split
        · split
          · exact healAfterDamage_nonneg _ (clamp_nonneg _)
          · exact clamp_nonneg _
        · exact clamp_nonneg _

/-- C2, amended: every successful attack resolution leaves the defender
with health at least 0; and whenever the attacker and the defender are
distinct players, the attacker entry of the player map — in particular its
health — is unchanged by that single resolution.  (For a self-targeted
resolution the two roles coincide and the single shared health field does
change; see the counterexample.) -/
theorem c2_amended (s : Session) (fromPlayer toPlayer : String) (r : Rng) (s1 : Session)
    (h : useAbility s fromPlayer toPlayer r = Except.ok s1) :
    (∃ ch, alookup toPlayer s1.players = some ch ∧ 0 ≤ ch.health) ∧
    (fromPlayer ≠ toPlayer →
      alookup fromPlayer s1.players = alookup fromPlayer s.players) := by
  obtain ⟨attacker, defender, health, hf, ht, hnn, hs1⟩ :=
    useAbility_ok_shape s fromPlayer toPlayer r s1 h
  subst hs1
  constructor
  · exact ⟨{ defender with health := health }, alookup_aset_self _ _ _, hnn⟩
  · intro hne
    exact alookup_aset_ne _ hne _

/-- C10: a self-targeted attack is not rejected: for every joined player p
with a catalog-consistent ability, useAbility p p succeeds (no
PlayersNotFound error) and commits to p exactly the health computed by the
combat pipeline with the Combatant of p serving as both attacker and
defender. -/
theorem c10_self_attack (s : Session) (p : String) (r : Rng) (ch : Character)
    (hch : alookup p s.players = some ch) (hwf : wfAbility ch.ability) :
    useAbility s p p r =
      Except.ok
        { s with
          players :=
            aset p
              ({ ch with
                 health :=
                   (let attackValue := ch.attackPower;
                    let attackValue :=
                      if ch.ability.kind = AbilityKind.offense then
                        boostOnAttack r.atk attackValue
                      else attackValue;
                    let netDamage := attackValue - ch.defensePower;
                    let netDamage := if netDamage < 0 then 0 else netDamage;
                    let netDamage :=
                      if ch.ability.kind = AbilityKind.defense then
                        (if ch.ability.id = "halfDamageOnDefend" then
                          halfOnDefend r.half netDamage
                        else netDamage)
                      else netDamage;
                    let health := ch.health - netDamage;
                    let health := if health < 0 then 0 else health;
                    if ch.ability.kind = AbilityKind.defense then
                      (if ch.ability.id = "healUnder30" then
                        healAfterDamage r.heal health
                      else health)
                    else health) })
              s.players }
    := by
  unfold useAbility
  rw [hch]
  dsimp only
  by_cases hk : ch.ability.kind = AbilityKind.offense
  · have hid := hwf hk
    simp [hk, hid, onAttackFor, halfDamageOnDefendBehavior, healUnder30Behavior]
  · have hd : ch.ability.kind = AbilityKind.defense := by
      cases hkk : ch.ability.kind
      · exact absurd hkk hk
      · rfl
    by_cases hid1 : ch.ability.id = "halfDamageOnDefend" <;>
      by_cases hid2 : ch.ability.id = "healUnder30"
    · exfalso; rw [hid1] at hid2; exact absurd hid2 (by decide)
    · simp [hd, hid1, hid2, halfDamageOnDefendBehavior, healUnder30Behavior]
    · simp [hd, hid1, hid2, halfDamageOnDefendBehavior, healUnder30Behavior]
    · simp [hd, hid1, hid2, halfDamageOnDefendBehavior, healUnder30Behavior]

/-- C9: the combat logic inlined in the useAbility socket handler is
equivalent to the canonical Session.useAbility resolution: for the same
session, the same attacker and defender (both recognized), and the same
outcomes of the probabilistic hooks, both apply the same pipeline (offense
onAttack, net-damage clamp at 0, HalfDamageOnDefend onDefend, health clamp
at 0, HealUnder30 afterDamage) and produce the same resulting session — in
particular the same final defender health. -/
theorem c9_refinement (s : Session) (rounds : Option Nat)
    (sessionId fromPlayer toPlayer : String) (r : Rng)
    (hf : hasPlayer s fromPlayer = true) (ht : hasPlayer s toPlayer = true) :
    (useAbilityHandler s rounds sessionId fromPlayer toPlayer r).map (fun x => x.1) =
      useAbility s fromPlayer toPlayer r := by
  unfold hasPlayer at hf ht
  obtain ⟨attacker, hfa⟩ := Option.isSome_iff_exists.mp hf
  obtain ⟨defender, hta⟩ := Option.isSome_iff_exists.mp ht
  unfold useAbilityHandler useAbility
  rw [hfa, hta]
  dsimp only
  by_cases hk : attacker.ability.kind = AbilityKind.offense
  · rw [if_pos hk, if_pos hk]
    cases ho : onAttackFor attacker.ability.id with
    | none => rfl
    | some f =>
      dsimp only
      by_cases hdk : defender.ability.kind = AbilityKind.defense <;>
        by_cases hid1 : defender.ability.id = "halfDamageOnDefend" <;>
          by_cases hid2 : defender.ability.id = "healUnder30"
      · exfalso; rw [hid1] at hid2; exact absurd hid2 (by decide)
      · simp [hdk, hid1, hid2, halfDamageOnDefendBehavior, healUnder30Behavior, Except.map]
      · simp [hdk, hid1, hid2, halfDamageOnDefendBehavior, healUnder30Behavior, Except.map]
      · simp [hdk, hid1, hid2, halfDamageOnDefendBehavior, healUnder30Behavior, Except.map]
      · exfalso; rw [hid1] at hid2; exact absurd hid2 (by decide)
      · simp [hdk, hid1, hid2, halfDamageOnDefendBehavior, healUnder30Behavior, Except.map]
      · simp [hdk, hid1, hid2, halfDamageOnDefendBehavior, healUnder30Behavior, Except.map]
      · simp [hdk, hid1, hid2, halfDamageOnDefendBehavior, healUnder30Behavior, Except.map]
  · rw [if_neg hk, if_neg hk]
    dsimp only
    by_cases hdk : defender.ability.kind = AbilityKind.defense <;>
      by_cases hid1 : defender.ability.id = "halfDamageOnDefend" <;>
        by_cases hid2 : defender.ability.id = "healUnder30"
    · exfalso; rw [hid1] at hid2; exact absurd hid2 (by decide)
    · simp [hdk, hid1, hid2, halfDamageOnDefendBehavior, healUnder30Behavior, Except.map]
    · simp [hdk, hid1, hid2, halfDamageOnDefendBehavior, healUnder30Behavior, Except.map]
    · simp [hdk, hid1, hid2, halfDamageOnDefendBehavior, healUnder30Behavior, Except.map]
    · exfalso; rw [hid1] at hid2; exact absurd hid2 (by decide)
    · simp [hdk, hid1, hid2, halfDamageOnDefendBehavior, healUnder30Behavior, Except.map]
    · simp [hdk, hid1, hid2, halfDamageOnDefendBehavior, healUnder30Behavior, Except.map]
    · simp [hdk, hid1, hid2, halfDamageOnDefendBehavior, healUnder30Behavior, Except.map]

/-- C1 (Scenario A): on a session whose two joined Combatants were created
by the Character constructor (health 100) with attackPower 20 for the
attacker and defensePower 10 for the defender, a single attack resolution
from p1 at p2 in which no probabilistic hook triggers (every hook returns
its input unchanged) yields a RoundOutcome with damageDealt 10, abilityUsed
null, and healthAfter of p2 equal to 90. -/
theorem c1_scenario_a (sess : Session) (rounds : Option Nat)
    (sessionId p1 p2 : String) (t1 t2 : CharacterType) (ab1 ab2 : Ability)
    (k1 k2 k3 k4 : Nat)
    (hne : p1 ≠ p2) (hwf : wfAbility ab1)
    (hp : sess.players =
      [(p1, Character.create t1 ab1 k1 k2), (p2, Character.create t2 ab2 k3 k4)])
    (hatk : randomInRange 15 20 k1 = 20)
    (hdef : randomInRange 10 15 k4 = 10) :
    ∃ s1 n out,
      useAbilityHandler sess rounds sessionId p1 p2 noTrigger =
        Except.ok (s1, n, out) ∧
      out.damageDealt = 10 ∧ out.abilityUsed = none ∧
      alookup p2 out.healthAfter = some 90 := by
  have hf1 : alookup p1 sess.players = some (Character.create t1 ab1 k1 k2) := by
    rw [hp]; simp [alookup]
  have ht2 : alookup p2 sess.players = some (Character.create t2 ab2 k3 k4) := by
    rw [hp]; simp [alookup, Ne.symm hne]
  unfold useAbilityHandler
  rw [hf1, ht2]
  dsimp only
  by_cases hk : ab1.kind = AbilityKind.offense
  · have hid := hwf hk
    by_cases hdk : ab2.kind = AbilityKind.defense <;>
      by_cases hid1 : ab2.id = "halfDamageOnDefend" <;>
        by_cases hid2 : ab2.id = "healUnder30"
    · exfalso; rw [hid1] at hid2; exact absurd hid2 (by decide)
    all_goals
      simp only [Character.create, hk, hid, hdk, hid1, hid2, onAttackFor, boostOnAttack,
        halfOnDefend, healAfterDamage, halfDamageOnDefendBehavior, healUnder30Behavior,
        noTrigger, hatk, hdef, aset, alookup]
    all_goals
      (simp [hatk, hdef, Ne.symm hne]
       refine ⟨_, _, _, ⟨rfl, rfl, rfl⟩, rfl, rfl, ?_⟩
       norm_num [alookup, Ne.symm hne, boostOnAttack])
  · by_cases hdk : ab2.kind = AbilityKind.defense <;>
      by_cases hid1 : ab2.id = "halfDamageOnDefend" <;>
        by_cases hid2 : ab2.id = "healUnder30"
    · exfalso; rw [hid1] at hid2; exact absurd hid2 (by decide)
    all_goals
      simp only [Character.create, hk, hdk, hid1, hid2, onAttackFor, boostOnAttack,
        halfOnDefend, healAfterDamage, halfDamageOnDefendBehavior, healUnder30Behavior,
        noTrigger, hatk, hdef, aset, alookup]
    all_goals
      (simp [hatk, hdef, Ne.symm hne]
       refine ⟨_, _, _, ⟨rfl, rfl, rfl⟩, rfl, rfl, ?_⟩
       norm_num [alookup, Ne.symm hne, boostOnAttack])

theorem sessInv_new (id p1 p2 : String) (h1 : p1 ≠ "") (h2 : p2 ≠ "") :
    SessInv (Session.new id p1 p2) := by
  refine ⟨h1, h2, ?_, ?_, ?_, ?_⟩
  · intro pr hpr; simp [Session.new] at hpr
  · intro q hq; simp [Session.new] at hq
  · intro hd; simp [Session.new] at hd
  · intro sp hsp; simp [Session.new] at hsp

theorem alookup_empty_of_inv (s : Session) (hInv : SessInv s) :
    alookup "" s.players = none := by
  cases h : alookup "" s.players with
  | none => rfl
  | some ch =>
    exfalso
    have hm := alookup_eq_some_mem h
    rcases hInv.2.2.1 ("", ch) hm with h1 | h1
    · exact hInv.1 h1.symm
    · exact hInv.2.1 h1.symm

theorem bothConnected_false_of_length {s : Session} (h : s.players.length ≠ 2) :
    bothConnected s = false := by
  unfold bothConnected
  rw [if_pos (by simp [h])]

theorem addPlayer_shape (s : Session) (cid aid : String) (pref : Option Nat)
    (k1 k2 : Nat) (h0 : alookup "" s.players = none) :
    ∃ ts, (∀ x ∈ s.takenSlots, x ∈ ts) ∧
      ((addPlayer s cid aid pref k1 k2).1 = { s with takenSlots := ts } ∨
       ∃ slot ch pjt,
         slot ∈ ts ∧ s.players.length < 2 ∧
         (addPlayer s cid aid pref k1 k2).1 =
           { s with
             players := aset (if slot = 1 then s.player1Id else s.player2Id) ch s.players
             assignments :=
               s.assignments ++ [(slot, if slot = 1 then s.player1Id else s.player2Id)]
             takenSlots := ts
             pendingJoinTimer := pjt }) := by
  unfold addPlayer
  by_cases h2 : 2 ≤ s.players.length
  · rw [if_pos h2]
    exact ⟨s.takenSlots, fun x hx => hx, Or.inl rfl⟩
  · rw [if_neg h2]
    obtain ⟨ts, hts, hcase, hmono⟩ := assignPlayerSlot_shape s "" pref
    rcases hres : assignPlayerSlot s "" pref with ⟨sa, res⟩
    rw [hres] at hts
    simp only at hts
    subst hts
    cases res with
    | error e1 => exact ⟨ts, hmono, Or.inl rfl⟩
    | ok slot =>
      dsimp only
      cases hparse : Character.parseType cid with
      | none => exact ⟨ts, hmono, Or.inl rfl⟩
      | some charType =>
        dsimp only
        cases hfind : Ability.findById aid with
        | none => exact ⟨ts, hmono, Or.inl rfl⟩
        | some ability =>
          dsimp only
          have hslot : slot ∈ ts := by
            have := assignPlayerSlot_ok_mem s "" pref slot h0 (by rw [hres])
            rw [hres] at this
            exact this
          by_cases hfull : (aset (if slot = 1 then s.player1Id else s.player2Id)
              (Character.create charType ability k1 k2) s.players).length = 2 ∧
              s.pendingJoinTimer = true
          · rw [if_pos hfull]
            exact ⟨ts, hmono, Or.inr ⟨slot, Character.create charType ability k1 k2,
              false, hslot, by omega, rfl⟩⟩
          · rw [if_neg hfull]
            exact ⟨ts, hmono, Or.inr ⟨slot, Character.create charType ability k1 k2,
              s.pendingJoinTimer, hslot, by omega, rfl⟩⟩

theorem sessInv_addPlayer (s : Session) (cid aid : String) (pref : Option Nat)
    (k1 k2 : Nat) (hInv : SessInv s) :
    SessInv (addPlayer s cid aid pref k1 k2).1 := by
  obtain ⟨ts, hmono, hcase | ⟨slot, ch, pjt, hslot, hlen, heq⟩⟩ :=
    addPlayer_shape s cid aid pref k1 k2 (alookup_empty_of_inv s hInv)
  · rw [hcase]
    obtain ⟨h1, h2, h3, h4, h5, h6⟩ := hInv
    refine ⟨h1, h2, h3, h4, ?_, ?_⟩
    · intro hd
      rw [show bothConnected { s with takenSlots := ts } = bothConnected s from
        bothConnected_eq_of rfl rfl]
      exact h5 hd
    · intro sp hsp
      exact hmono _ (h6 sp hsp)
  · rw [heq]
    obtain ⟨h1, h2, h3, h4, h5, h6⟩ := hInv
    refine ⟨h1, h2, ?_, ?_, ?_, ?_⟩
    · intro pr hpr
      rcases mem_aset hpr with h | h
      · rw [h]
        by_cases hs1 : slot = 1
        · left; simp [hs1]
        · right; simp [hs1]
      · exact h3 pr h
    · intro q hq
      obtain ⟨pr, hpr, hpr2⟩ := h4 q hq
      by_cases hq2 : pr.1 = (if slot = 1 then s.player1Id else s.player2Id)
      · refine ⟨((if slot = 1 then s.player1Id else s.player2Id), ch),
          self_mem_aset _ ch s.players, ?_⟩
        rw [← hq2, hpr2]
      · exact ⟨pr, mem_aset_of_mem_ne hq2 hpr, hpr2⟩
    · intro hd
      cases hb : bothConnected { s with
          players := aset (if slot = 1 then s.player1Id else s.player2Id) ch s.players
          assignments :=
            s.assignments ++ [(slot, if slot = 1 then s.player1Id else s.player2Id)]
          takenSlots := ts
          pendingJoinTimer := pjt } with
      | false => rfl
      | true =>
        exfalso
        obtain ⟨hlen2, hconn⟩ := (bothConnected_eq_true_iff _).mp hb
        obtain ⟨q, hqmem, hqv⟩ := hconn
          ((if slot = 1 then s.player1Id else s.player2Id), ch)
          (self_mem_aset _ ch s.players)
        obtain ⟨pr, hpr, hpr2⟩ := h4 q hqmem
        have hmem2 : ((if slot = 1 then s.player1Id else s.player2Id), pr.2) ∈ s.players := by
          have : pr = (pr.1, pr.2) := rfl
          rw [hpr2, hqv] at this
          rw [← this]
          exact hpr
        have hsome := alookup_isSome_of_mem hmem2
        obtain ⟨w, hw⟩ := Option.isSome_iff_exists.mp hsome
        have hlen3 := length_aset_of_lookup_some ch hw
        simp only at hlen2
        omega
    · intro sp hsp
      simp only at hsp
      rw [List.mem_append] at hsp
      rcases hsp with h | h
      · exact hmono _ (h6 sp h)
      · rw [List.mem_singleton] at h
        rw [h]
        exact hslot

theorem sessInv_attachSocket (s : Session) (socketId playerId : String)
    (hInv : SessInv s) (hpl : hasPlayer s playerId = true) :
    SessInv (attachSocket s socketId playerId) := by
  obtain ⟨h1, h2, h3, h4, h5, h6⟩ := hInv
  unfold hasPlayer at hpl
  obtain ⟨ch, hch⟩ := Option.isSome_iff_exists.mp hpl
  have hsock : ∀ q ∈ aset socketId playerId s.sockets,
      ∃ pr ∈ s.players, pr.1 = q.2 := by
    intro q hq
    rcases mem_aset hq with h | h
    · rw [h]
      exact ⟨(playerId, ch), alookup_eq_some_mem hch, rfl⟩
    · exact h4 q h
  unfold attachSocket
  by_cases hc : bothConnected { s with sockets := aset socketId playerId s.sockets } = true ∧
      ({ s with sockets := aset socketId playerId s.sockets } : Session).disconnectTimer = true
  · rw [if_pos hc]
    refine ⟨h1, h2, h3, hsock, ?_, h6⟩
    intro hd
    simp at hd
  · rw [if_neg hc]
    refine ⟨h1, h2, h3, hsock, ?_, h6⟩
    intro hd
    rcases Decidable.not_and_iff_or_not.mp hc with h | h
    · simp only [Bool.not_eq_true] at h
      exact h
    · exact absurd hd h

theorem sessInv_detachSocket (s : Session) (socketId : String) (hInv : SessInv s) :
    SessInv (detachSocket s socketId).1 := by
  obtain ⟨h1, h2, h3, h4, h5, h6⟩ := hInv
  unfold detachSocket
  by_cases ha : (alookup socketId s.sockets).isSome = true
  · rw [if_pos ha]
    have hsock : ∀ q ∈ adel socketId s.sockets, ∃ pr ∈ s.players, pr.1 = q.2 :=
      fun q hq => h4 q (mem_adel hq)
    by_cases hc : bothConnected { s with sockets := adel socketId s.sockets } = false ∧
        ({ s with sockets := adel socketId s.sockets } : Session).disconnectTimer = false
    · rw [if_pos hc]
      refine ⟨h1, h2, h3, hsock, ?_, h6⟩
      intro _
      exact hc.1
    · rw [if_neg hc]
      refine ⟨h1, h2, h3, hsock, ?_, h6⟩
      intro hd
      simp only at hd
      cases hb : bothConnected { s with sockets := adel socketId s.sockets } with
      | false => rfl
      | true =>
        exfalso
        have := bothConnected_adel_mono hb
        rw [h5 hd] at this
        exact Bool.noConfusion this
  · rw [if_neg ha]
    exact ⟨h1, h2, h3, h4, h5, h6⟩

theorem greach_inv (st : Sys) (h : GReach st) : SessInv st.sess := by
  induction h with
  | init id p1 p2 h1 h2 h3 => exact sessInv_new id p1 p2 h1 h2
  | step st e ih hInv =>
    cases e with
    | httpJoin cid aid pref k1 k2 =>
      unfold gstep
      dsimp only
      by_cases hr : st.inRegistry
      · rw [if_pos hr]
        exact sessInv_addPlayer _ _ _ _ _ _ hInv
      · rw [if_neg hr]
        exact hInv
    | sockJoin socketId playerId =>
      unfold gstep
      dsimp only
      by_cases hr : st.inRegistry
      · rw [if_pos hr]
        by_cases hp : hasPlayer st.sess playerId = true
        · rw [if_pos hp]
          exact sessInv_attachSocket _ _ _ hInv hp
        · rw [if_neg hp]
          exact hInv
      · rw [if_neg hr]
        exact hInv
    | sockDisconnect socketId =>
      unfold gstep
      dsimp only
      by_cases hr : st.inRegistry
      · rw [if_pos hr]
        exact sessInv_detachSocket _ _ hInv
      · rw [if_neg hr]
        exact hInv
    | pendingFire =>
      unfold gstep
      dsimp only
      by_cases hp : st.sess.pendingJoinTimer = true
      · rw [if_pos hp]
        obtain ⟨h1, h2, h3, h4, h5, h6⟩ := hInv
        refine ⟨h1, h2, h3, h4, ?_, h6⟩
        intro hd
        rw [show bothConnected { st.sess with pendingJoinTimer := false } =
            bothConnected st.sess from bothConnected_eq_of rfl rfl]
        exact h5 hd
      · rw [if_neg hp]
        exact hInv
    | discFire =>
      unfold gstep
      dsimp only
      by_cases hp : st.sess.disconnectTimer = true
      · rw [if_pos hp]
        obtain ⟨h1, h2, h3, h4, h5, h6⟩ := hInv
        refine ⟨h1, h2, h3, h4, ?_, h6⟩
        intro hd
        simp at hd
      · rw [if_neg hp]
        exact hInv

/-- C5: at fire time each timer deletion is justified by its condition.
The pending-join callback re-checks players.size < 2 and is a registry
no-op when two players have joined by fire time; the disconnect timer can
only still be pending — and hence only fire — while the session is not
both-connected, because attachSocket cancels it the moment both players
are connected, so its deletion at fire time is always justified. -/
theorem c5_timer_fire_rechecks (st : Sys) (h : GReach st) :
    ((gstep st GEvent.pendingFire).inRegistry ≠ st.inRegistry →
      st.sess.players.length < 2) ∧
    (2 ≤ st.sess.players.length →
      gstep st GEvent.pendingFire =
        { st with sess := { st.sess with pendingJoinTimer := false } }) ∧
    ((gstep st GEvent.discFire).inRegistry ≠ st.inRegistry →
      bothConnected st.sess = false) := by
  refine ⟨?_, ?_, ?_⟩
  · intro hne
    by_cases hl : st.sess.players.length < 2
    · exact hl
    · exfalso
      apply hne
      unfold gstep
      dsimp only
      by_cases hp : st.sess.pendingJoinTimer = true
      · rw [if_pos hp]
        dsimp only
        rw [if_neg hl]
      · rw [if_neg hp]
  · intro hl
    unfold gstep
    dsimp only
    cases hp : st.sess.pendingJoinTimer with
    | true =>
      rw [if_pos rfl]
      have hl2 : ¬ st.sess.players.length < 2 := by omega
      rw [if_neg hl2]
    | false =>
      rw [if_neg (by simp)]
      have hsess : { st.sess with pendingJoinTimer := false } = st.sess := by
        rw [← hp]
      rw [hsess]
  · intro hne
    have hd : st.sess.disconnectTimer = true := by
      by_contra hd
      apply hne
      unfold gstep
      dsimp only
      rw [if_neg hd]
    exact (greach_inv st h).2.2.2.2.1 hd

/-- C5, witness: the theorem applied to the freshly created registered
session, whose pending-join timer deletion at fire time is justified by
zero joined players. -/
theorem c5_witness :
    ((gstep sys0G GEvent.pendingFire).inRegistry ≠ sys0G.inRegistry →
      sys0G.sess.players.length < 2) ∧
    (2 ≤ sys0G.sess.players.length →
      gstep sys0G GEvent.pendingFire =
        { sys0G with sess := { sys0G.sess with pendingJoinTimer := false } }) ∧
    ((gstep sys0G GEvent.discFire).inRegistry ≠ sys0G.inRegistry →
      bothConnected sys0G.sess = false) :=
  c5_timer_fire_rechecks sys0G
    (GReach.init "s" "p1" "p2" (by decide) (by decide) (by decide))

/-- C8, counterexample: on a freshly created session — a reachable state —
getAvailableSlots returns the whole pair, which is a subset but not a
strict subset of the pair, refuting the strict-subset part of the claim. -/
theorem c8_counterexample :
    getAvailableSlots duelSession0 = [1, 2] ∧
    ¬ ((getAvailableSlots duelSession0).toFinset ⊂ ({1, 2} : Finset ℕ)) := by
  exact ⟨rfl, by decide⟩

/-- C8, amended: for every reachable session state, getAvailableSlots
returns a subset of the pair of slots 1 and 2 (possibly all of it, e.g. on
a fresh session), and it never contains a slot that was claimed for a
joined player. -/
theorem c8_available_slots (st : Sys) (h : GReach st) :
    (∀ x ∈ getAvailableSlots st.sess, x = 1 ∨ x = 2) ∧
    (∀ sp ∈ st.sess.assignments, hasPlayer st.sess sp.2 = true →
      sp.1 ∉ getAvailableSlots st.sess) := by
  constructor
  · intro x hx
    unfold getAvailableSlots at hx
    rw [List.mem_append] at hx
    rcases hx with hx | hx
    · left
      by_cases h1 : 1 ∈ st.sess.takenSlots
      · rw [if_pos h1] at hx; simp at hx
      · rw [if_neg h1] at hx; simpa using hx
    · right
      by_cases h2 : 2 ∈ st.sess.takenSlots
      · rw [if_pos h2] at hx; simp at hx
      · rw [if_neg h2] at hx; simpa using hx
  · intro sp hsp _
    have htaken := (greach_inv st h).2.2.2.2.2 sp hsp
    intro hmem
    unfold getAvailableSlots at hmem
    rw [List.mem_append] at hmem
    rcases hmem with hx | hx
    · by_cases h1 : 1 ∈ st.sess.takenSlots
      · rw [if_pos h1] at hx; simp at hx
      · rw [if_neg h1] at hx
        rw [List.mem_singleton] at hx
        rw [hx] at htaken
        exact h1 htaken
    · by_cases h2 : 2 ∈ st.sess.takenSlots
      · rw [if_pos h2] at hx; simp at hx
      · rw [if_neg h2] at hx
        rw [List.mem_singleton] at hx
        rw [hx] at htaken
        exact h2 htaken

/-- C8, witness: after one join on the fresh session, slot 1 was claimed
for the joined player and no longer appears among the available slots. -/
theorem c8_witness :
    (1 : Nat) ∉ getAvailableSlots
      (gstep sys0G (GEvent.httpJoin "warrior" "boostAttackOnAttack" none 0 0)).sess :=
  (c8_available_slots
      (gstep sys0G (GEvent.httpJoin "warrior" "boostAttackOnAttack" none 0 0))
      (GReach.step sys0G (GEvent.httpJoin "warrior" "boostAttackOnAttack" none 0 0)
        (GReach.init "s" "p1" "p2" (by decide) (by decide) (by decide)))).2
    (1, "p1") (by decide) (by decide)

/-- C2, counterexample: the combat resolution accepts a self-targeted
attack, and then the attacker — being also the defender — loses health:
on a one-player session with attackPower 20 and defensePower 10 the
health of the attacker itself drops from 100 to 90, refuting the claim
that the attacker health field is unchanged by every single resolution over every
attacker/defender pair of joined players. -/
theorem c2_counterexample :
    (alookup "p1" duelSessionA.players).map (fun ch => ch.health) = some 100 ∧
    (useAbility duelSessionA "p1" "p1" noTrigger).map
      (fun s1 => (alookup "p1" s1.players).map (fun ch => ch.health)) =
      Except.ok (some 90) := by
  exact ⟨rfl, rfl⟩

/-- C2, witness: the amended theorem evaluated on the two-player session
after one hookless attack: the defender keeps nonnegative health and the
attacker entry is untouched. -/
theorem c2_witness :
    (∃ ch, alookup "p2" duelSessionABHit.players = some ch ∧ 0 ≤ ch.health) ∧
    alookup "p1" duelSessionABHit.players = alookup "p1" duelSessionAB.players := by
  have h := c2_amended duelSessionAB "p1" "p2" noTrigger duelSessionABHit rfl
  exact ⟨h.1, h.2 (by decide)⟩

/-- C10, witness: a self-attack on the one-player session succeeds and
leaves the player at health 90. -/
theorem c10_witness :
    (∃ s1, useAbility duelSessionA "p1" "p1" noTrigger = Except.ok s1) ∧
    (useAbility duelSessionA "p1" "p1" noTrigger).map
      (fun s1 => (alookup "p1" s1.players).map (fun ch => ch.health)) =
      Except.ok (some 90) := by
  have h := c10_self_attack duelSessionA "p1" noTrigger
    (Character.create CharacterType.warrior boostAbility 5 0) (by decide) (fun _ => rfl)
  refine ⟨⟨_, h⟩, ?_⟩
  rw [h]
  rfl

/-- C9, witness: on the two-player session with no hook firing, the
transport-layer handler and the session model resolution agree. -/
theorem c9_witness :
    (useAbilityHandler duelSessionAB none "s" "p1" "p2" noTrigger).map (fun x => x.1) =
      useAbility duelSessionAB "p1" "p2" noTrigger :=
  c9_refinement duelSessionAB none "s" "p1" "p2" noTrigger (by decide) (by decide)

/-- C1, witness: Scenario A on the concrete two-player session (attack 20,
defense 10, hooks stubbed to never trigger). -/
theorem c1_witness :
    ∃ s1 n out,
      useAbilityHandler duelSessionAB none "s" "p1" "p2" noTrigger =
        Except.ok (s1, n, out) ∧
      out.damageDealt = 10 ∧ out.abilityUsed = none ∧
      alookup "p2" out.healthAfter = some 90 :=
  c1_scenario_a duelSessionAB none "s" "p1" "p2" CharacterType.warrior
    CharacterType.warrior boostAbility halfAbility 5 0 5 0
    (by decide) (fun _ => rfl) (by decide) (by decide) (by decide)
